import Mathlib

/-!
Verification development for the trip-analyzer repository (src/src/main.rs).

The Rust program streams taxi-trip rows, filters them to the midtown-to-JFK
weekday corridor, validates trip durations against the range [1200 s, 10800 s],
records accepted durations in one of 24 per-pickup-hour histograms, and emits
per-hour minimum / median / 95th-percentile statistics in minutes.

The embedding below translates `main.rs` into Lean.  The program's three
external library dependencies (`chrono` timestamp parsing and calendar
arithmetic, the `hdrhistogram` recording and quantile queries, and the `csv`
row decoder) are not part of this repository's sources; where their behaviour
matters it is modelled from the specification, and each such definition is
marked `Modelled from the spec:` in its doc comment.  Rows arrive here already
decoded, as `Trip` values, mirroring the typed records the csv layer hands to
`analyze`.
-/

/-- Calendar date-time with second precision, the shape of the program's
`DT = chrono::NaiveDateTime` as used by the program (weekday, hour, and
second-difference queries). -/
structure DateTime where
  year : Nat
  month : Nat
  day : Nat
  hour : Nat
  minute : Nat
  second : Nat
deriving DecidableEq, Repr

def isLeapYear (y : Nat) : Bool :=
  (y % 4 == 0 && y % 100 != 0) || (y % 400 == 0)

def daysInMonth (y m : Nat) : Nat :=
  if m == 2 then (if isLeapYear y then 29 else 28)
  else if m == 4 || m == 6 || m == 9 || m == 11 then 30
  else 31

/-- Gregorian-calendar validity of a date-time, as enforced by the timestamp
parser: real month/day, 24-hour clock, second precision. -/
def validDT (dt : DateTime) : Bool :=
  1 ≤ dt.month && dt.month ≤ 12 && 1 ≤ dt.day && dt.day ≤ daysInMonth dt.year dt.month
    && dt.hour ≤ 23 && dt.minute ≤ 59 && dt.second ≤ 59

/-- Number of days in year `y` strictly before month `m`. -/
def daysBeforeMonth (y m : Nat) : Nat :=
  ((List.range (m - 1)).map (fun k => daysInMonth y (k + 1))).sum

/-- Number of leap years strictly before year `y` (proleptic Gregorian). -/
def leapsBefore (y : Nat) : Nat :=
  (y - 1) / 4 - (y - 1) / 100 + (y - 1) / 400

/-- Linear day count of a date (day 0 = 0000-01-01, proleptic Gregorian). -/
def toDayNumber (dt : DateTime) : Nat :=
  365 * dt.year + leapsBefore dt.year + daysBeforeMonth dt.year dt.month + (dt.day - 1)

/-- Day of week with Monday = 1 .. Sunday = 7, the value of chrono's
`weekday().number_from_monday()`.  The offset is fixed by known anchors
(2000-01-01 was a Saturday). -/
def numberFromMonday (dt : DateTime) : Nat :=
  (toDayNumber dt + 6) % 7 + 1

/-- Second count of a date-time on the linear day scale; differences of this
count are the program's `(dropoff - pickup).num_seconds()`. -/
def toSecs (dt : DateTime) : Nat :=
  toDayNumber dt * 86400 + dt.hour * 3600 + dt.minute * 60 + dt.second

def digitVal (c : Char) : Nat := c.toNat - 48

/-- Modelled from the spec: `parse_datetime` in `main.rs` delegates to
chrono's `NaiveDateTime::parse_from_str(s, "%Y-%m-%d %H:%M:%S")`, whose code
is not in this repository.  Following spec section 4.3, it accepts exactly the
format `YYYY-MM-DD HH:MM:SS` (zero-padded components, 24-hour clock, valid
calendar date) and fails on any mismatch; failure is `none`. -/
def parse_datetime (s : String) : Option DateTime :=
  match s.data with
  | [y1, y2, y3, y4, a, m1, m2, b, d1, d2, c, h1, h2, e, n1, n2, f, s1, s2] =>
    if y1.isDigit && y2.isDigit && y3.isDigit && y4.isDigit &&
        m1.isDigit && m2.isDigit && d1.isDigit && d2.isDigit &&
        h1.isDigit && h2.isDigit && n1.isDigit && n2.isDigit &&
        s1.isDigit && s2.isDigit &&
        a == '-' && b == '-' && c == ' ' && e == ':' && f == ':' then
      let dt : DateTime :=
        { year := 1000 * digitVal y1 + 100 * digitVal y2 + 10 * digitVal y3 + digitVal y4
          month := 10 * digitVal m1 + digitVal m2
          day := 10 * digitVal d1 + digitVal d2
          hour := 10 * digitVal h1 + digitVal h2
          minute := 10 * digitVal n1 + digitVal n2
          second := 10 * digitVal s1 + digitVal s2 }
      if validDT dt then some dt else none
    else none
  | _ => none

/-- Membership in the fixed midtown set; `main.rs` realizes this as
`locations.binary_search(&loc).is_ok()` on the sorted array, which on a sorted
slice is exactly membership. -/
def is_in_middtown (loc : Nat) : Bool :=
  [90, 100, 161, 162, 163, 164, 186, 230, 234].contains loc

def is_jfk_airport (loc : Nat) : Bool := loc == 132

def is_weekday (dt : DateTime) : Bool := numberFromMonday dt ≤ 5

/-- The 24 per-hour histograms.  Modelled from the spec: the `hdrhistogram`
crate is not part of this repository, so following spec section 4.4 each
histogram is the sequence of values recorded into it, and `record` fails
exactly when the value exceeds the configured upper bound 10800. -/
def Hists := Nat → List Nat

def histRecord (hs : Hists) (hour v : Nat) : Hists :=
  fun h => if h = hour then hs h ++ [v] else hs h

def tooShortMsg (d : Nat) : String :=
  "duration secs " ++ toString d ++ " is too short."

/-- Modelled from the spec: the suffix names the record error of the histogram
library on an out-of-range value with resizing disabled. -/
def tooLongMsg (d : Nat) : String :=
  "duration secs " ++ toString d ++ " is too long. ValueOutOfRangeResizeDisabled"

/-- The value of `(dropoff - pickup).num_seconds() as u64`: the signed second
difference cast to an unsigned 64-bit integer, i.e. reduced modulo 2^64. -/
def durationOf (pickup dropoff : DateTime) : Nat :=
  (((toSecs dropoff : Int) - (toSecs pickup : Int)) % (2 ^ 64 : Int)).toNat

/-- `DurationHistograms::record_duration` of `main.rs`: reject durations below
20 minutes; otherwise record into the histogram of the pickup hour, which
rejects values above the 3-hour upper bound. -/
def record_duration (hs : Hists) (pickup dropoff : DateTime) : Except String Hists :=
  let duration := durationOf pickup dropoff
  if duration < 20 * 60 then
    Except.error (tooShortMsg duration)
  else
    let hour := pickup.hour
    if 3 * 60 * 60 < duration then Except.error (tooLongMsg duration)
    else Except.ok (histRecord hs hour duration)

/-- The caller's view of one `record_duration` call (`unwrap_or_else` in
`analyze`): the histograms actually kept afterwards, and the error message if
the insertion failed. -/
def applyRecord (hs : Hists) (pickup dropoff : DateTime) : Hists × Option String :=
  match record_duration hs pickup dropoff with
  | Except.ok hs' => (hs', none)
  | Except.error e => (hs, some e)

/-- One decoded row, the `Trip` struct of `main.rs`. -/
structure Trip where
  pickup_datetime : String
  dropoff_datetime : String
  pickup_loc : Nat
  dropoff_loc : Nat
deriving DecidableEq, Repr

structure RecordCounts where
  read : Nat
  matched : Nat
  skipped : Nat
deriving DecidableEq, Repr

def quoteStr (s : String) : String := "\"" ++ s ++ "\""

/-- The derived `Debug` rendering of a `Trip`, as interpolated by the warning
line's `{:?}`. -/
def tripDebug (t : Trip) : String :=
  "Trip \x7b pickup_datetime: " ++ quoteStr t.pickup_datetime ++
    ", dropoff_datetime: " ++ quoteStr t.dropoff_datetime ++
    ", pickup_loc: " ++ toString t.pickup_loc ++
    ", dropoff_loc: " ++ toString t.dropoff_loc ++ " \x7d"

/-- The diagnostic line `eprintln!("WARN: {} - {}. Skipped: {:?}", n, msg, t)`. -/
def warnLine (n : Nat) (msg : String) (t : Trip) : String :=
  "WARN: " ++ toString n ++ " - " ++ msg ++ ". Skipped: " ++ tripDebug t

/-- Modelled from the spec: the fatal error value carried out of `analyze`
when a timestamp fails to parse (spec section 7, ParseError). -/
def parseErrorMsg : String := "ParseError"

/-- Mutable state of the `analyze` loop: the running counters, the histogram
array, and the diagnostic lines emitted so far. -/
structure AnalyzeState where
  counts : RecordCounts
  hists : Hists
  warns : List String

def initState : AnalyzeState :=
  { counts := { read := 0, matched := 0, skipped := 0 }
    hists := fun _ => []
    warns := [] }

/-- The body of the `for` loop of `analyze` for the data row with 0-based
index `i`: count the row as read; if both location checks pass, parse the
pickup timestamp (aborting the run on failure); if the weekday test passes,
count the row as matched, parse the dropoff timestamp (aborting on failure),
and attempt to record the duration, on failure emitting one warning line and
counting the row as skipped. -/
def processTrip (i : Nat) (t : Trip) (st : AnalyzeState) : Except String AnalyzeState :=
  let st1 : AnalyzeState := { st with counts.read := st.counts.read + 1 }
  if is_jfk_airport t.dropoff_loc && is_in_middtown t.pickup_loc then
    match parse_datetime t.pickup_datetime with
    | none => Except.error parseErrorMsg
    | some pickup =>
      if is_weekday pickup then
        let st2 : AnalyzeState := { st1 with counts.matched := st1.counts.matched + 1 }
        match parse_datetime t.dropoff_datetime with
        | none => Except.error parseErrorMsg
        | some dropoff =>
          match record_duration st2.hists pickup dropoff with
          | Except.ok hs => Except.ok { st2 with hists := hs }
          | Except.error e =>
            Except.ok { st2 with
              counts.skipped := st2.counts.skipped + 1
              warns := st2.warns ++ [warnLine (i + 2) e t] }
      else Except.ok st1
  else Except.ok st1

/-- The row loop of `analyze` starting at 0-based row index `i`. -/
def runFrom (i : Nat) (trips : List Trip) (st : AnalyzeState) : Except String AnalyzeState :=
  match trips with
  | [] => Except.ok st
  | t :: ts =>
    match processTrip i t st with
    | Except.ok st' => runFrom (i + 1) ts st'
    | Except.error e => Except.error e

def runAnalyze (trips : List Trip) : Except String AnalyzeState :=
  runFrom 0 trips initState

/-- Recorded values of one histogram in ascending order. -/
def sortedOf (l : List Nat) : List Nat :=
  List.insertionSort (fun a b => a ≤ b) l

/-- Modelled from the spec: the histogram's `min()` — the lowest recorded
value, and the empty-state reading 0 on an empty histogram. -/
def histMin (l : List Nat) : Nat := (sortedOf l).headD 0

/-- Modelled from the spec: the histogram's `value_at_quantile(q)` — the value
at the q-th order statistic of the recorded values (at least the first), and
the empty-state reading 0 on an empty histogram. -/
def value_at_quantile (l : List Nat) (q : Rat) : Nat :=
  let s := sortedOf l
  if s.isEmpty then 0
  else s.getD (max 1 (Int.ceil (q * s.length)).toNat - 1) 0

structure StatsEntry where
  hour_of_day : Nat
  minimum : Rat
  median : Rat
  p95 : Rat
deriving DecidableEq, Repr

structure DisplayStats where
  record_counts : RecordCounts
  stats : List StatsEntry
deriving DecidableEq, Repr

/-- One `StatsEntry` of `DisplayStats::new`: hour index plus the three
histogram readings converted from seconds to minutes. -/
def statsEntryOf (h : Nat) (l : List Nat) : StatsEntry :=
  { hour_of_day := h
    minimum := (histMin l : Rat) / 60
    median := (value_at_quantile l (1 / 2) : Rat) / 60
    p95 := (value_at_quantile l (19 / 20) : Rat) / 60 }

/-- `DisplayStats::new`: the counters plus one entry per histogram, in
histogram-array order (hours 0..23). -/
def displayStats (st : AnalyzeState) : DisplayStats :=
  { record_counts := st.counts
    stats := (List.range 24).map (fun h => statsEntryOf h (st.hists h)) }

/-- `analyze`: run the row loop over all decoded rows and, on success, project
the final state to the output document (which serde serializes as the JSON
text) together with the emitted diagnostic lines. -/
def analyze (trips : List Trip) : Except String (DisplayStats × List String) :=
  (runAnalyze trips).map (fun st => (displayStats st, st.warns))

/-- Position-independent classification: a row is matched exactly when both
location checks and the weekday test pass. -/
def rowMatched (t : Trip) : Bool :=
  is_jfk_airport t.dropoff_loc && is_in_middtown t.pickup_loc &&
    (match parse_datetime t.pickup_datetime with
      | some dt => is_weekday dt
      | none => false)

/-- The pickup hour and u64 duration of a row whose two timestamps parse. -/
def tripDur (t : Trip) : Option (Nat × Nat) :=
  match parse_datetime t.pickup_datetime, parse_datetime t.dropoff_datetime with
  | some p, some q => some (p.hour, durationOf p q)
  | _, _ => none

/-- A row aborts the run when its locations pass but a needed timestamp fails
to parse. -/
def rowAborts (t : Trip) : Bool :=
  is_jfk_airport t.dropoff_loc && is_in_middtown t.pickup_loc &&
    (match parse_datetime t.pickup_datetime with
      | none => true
      | some dt =>
        is_weekday dt && (parse_datetime t.dropoff_datetime).isNone)

/-- A matched row is skipped exactly when its duration is outside
[1200, 10800]. -/
def rowSkips (t : Trip) : Bool :=
  rowMatched t &&
    (match tripDur t with
      | some pr => decide (pr.2 < 1200 ∨ 10800 < pr.2)
      | none => false)

/-- The duration a row contributes to histogram `h`, if any. -/
def rowVal (h : Nat) (t : Trip) : Option Nat :=
  if rowMatched t then
    match tripDur t with
    | some pr => if pr.1 = h ∧ 1200 ≤ pr.2 ∧ pr.2 ≤ 10800 then some pr.2 else none
    | none => none
  else none

def c1trip : Trip :=
  { pickup_datetime := "2020-01-06 08:00:00"
    dropoff_datetime := "2020-01-06 08:30:00"
    pickup_loc := 161
    dropoff_loc := 132 }

def c1dt : DateTime :=
  { year := 2020, month := 1, day := 6, hour := 8, minute := 0, second := 0 }

def c1res : AnalyzeState :=
  { counts := { read := 1, matched := 1, skipped := 0 }
    hists := histRecord initState.hists 8 1800
    warns := [] }

def c2trip : Trip :=
  { pickup_datetime := "2020-01-06 08:00:00"
    dropoff_datetime := "2020-01-06 08:30:00"
    pickup_loc := 163
    dropoff_loc := 132 }

def c2st : AnalyzeState :=
  { counts := { read := 1, matched := 1, skipped := 0 }
    hists := histRecord initState.hists 8 1800
    warns := [] }

def c3p : DateTime := { year := 2020, month := 1, day := 6, hour := 8, minute := 0, second := 0 }

def c3q : DateTime := { year := 2020, month := 1, day := 6, hour := 8, minute := 19, second := 59 }

def c4p : DateTime := { year := 2020, month := 1, day := 6, hour := 8, minute := 0, second := 0 }

def c4q : DateTime := { year := 2020, month := 1, day := 6, hour := 11, minute := 0, second := 0 }

def c5trip : Trip :=
  { pickup_datetime := "2020-01-06 08:00:00"
    dropoff_datetime := "2020-01-06 11:00:00"
    pickup_loc := 161
    dropoff_loc := 132 }

def c5st : AnalyzeState :=
  { counts := { read := 1, matched := 1, skipped := 0 }
    hists := histRecord initState.hists 8 10800
    warns := [] }

def c7a : Trip :=
  { pickup_datetime := "2020-01-06 08:00:00"
    dropoff_datetime := "2020-01-06 08:30:00"
    pickup_loc := 161
    dropoff_loc := 132 }

def c7b : Trip :=
  { pickup_datetime := "2020-01-06 09:00:00"
    dropoff_datetime := "2020-01-06 09:20:00"
    pickup_loc := 90
    dropoff_loc := 132 }

def c7st1 : AnalyzeState :=
  { counts := { read := 2, matched := 2, skipped := 0 }
    hists := histRecord (histRecord initState.hists 8 1800) 9 1200
    warns := [] }

def c7st2 : AnalyzeState :=
  { counts := { read := 2, matched := 2, skipped := 0 }
    hists := histRecord (histRecord initState.hists 9 1200) 8 1800
    warns := [] }

def c8bad : Trip :=
  { pickup_datetime := "2020-01-06 8:00:00"
    dropoff_datetime := "2020-01-06 08:30:00"
    pickup_loc := 161
    dropoff_loc := 132 }

def c8next : Trip :=
  { pickup_datetime := "2020-01-06 09:00:00"
    dropoff_datetime := "2020-01-06 09:30:00"
    pickup_loc := 161
    dropoff_loc := 132 }

def c9trip : Trip :=
  { pickup_datetime := "2020-01-06 08:00:00"
    dropoff_datetime := "2020-01-06 08:10:00"
    pickup_loc := 161
    dropoff_loc := 132 }

def c9p : DateTime := { year := 2020, month := 1, day := 6, hour := 8, minute := 0, second := 0 }

def c9q : DateTime := { year := 2020, month := 1, day := 6, hour := 8, minute := 10, second := 0 }

def c10trip : Trip :=
  { pickup_datetime := "2020-01-06 09:00:00"
    dropoff_datetime := "2020-01-06 08:00:00"
    pickup_loc := 161
    dropoff_loc := 132 }

def c10p : DateTime := { year := 2020, month := 1, day := 6, hour := 9, minute := 0, second := 0 }

def c10q : DateTime := { year := 2020, month := 1, day := 6, hour := 8, minute := 0, second := 0 }

theorem parse_valid {s : String} {dt : DateTime} (h : parse_datetime s = some dt) :
    validDT dt = true := by
  unfold parse_datetime at h
  split at h
  · split at h
    · dsimp only at h
      split at h
      · cases h; assumption
      · exact absurd h (by simp)
    · exact absurd h (by simp)
  · exact absurd h (by simp)

theorem parse_hour_lt {s : String} {dt : DateTime} (h : parse_datetime s = some dt) :
    dt.hour < 24 := by
  have hv := parse_valid h
  simp [validDT] at hv
  omega

theorem is_in_middtown_iff (loc : Nat) :
    is_in_middtown loc = true ↔
      (loc = 90 ∨ loc = 100 ∨ loc = 161 ∨ loc = 162 ∨ loc = 163 ∨ loc = 164 ∨
        loc = 186 ∨ loc = 230 ∨ loc = 234) := by
  simp [is_in_middtown]

theorem is_jfk_airport_iff (loc : Nat) : is_jfk_airport loc = true ↔ loc = 132 := by
  simp [is_jfk_airport]

theorem record_duration_eq (hs : Hists) (p q : DateTime) :
    record_duration hs p q =
      (if durationOf p q < 1200 then Except.error (tooShortMsg (durationOf p q))
       else if 10800 < durationOf p q then Except.error (tooLongMsg (durationOf p q))
       else Except.ok (histRecord hs p.hour (durationOf p q))) := by
  norm_num [record_duration]

theorem durationOf_eq_of_nonneg {p q : DateTime} {d : Nat}
    (hd : (toSecs q : Int) - (toSecs p : Int) = (d : Int)) (hlt : d < 2 ^ 63) :
    durationOf p q = d := by
  unfold durationOf
  rw [hd]
  omega

theorem durationOf_of_neg {p q : DateTime} {d : Int}
    (hd : (toSecs q : Int) - (toSecs p : Int) = d) (hneg : d < 0)
    (hbound : -(2 ^ 63) ≤ d) :
    (durationOf p q : Int) = d + 2 ^ 64 := by
  unfold durationOf
  rw [hd]
  omega

theorem processTrip_not_corridor {i : Nat} {t : Trip} {st : AnalyzeState}
    (h : (is_jfk_airport t.dropoff_loc && is_in_middtown t.pickup_loc) = false) :
    processTrip i t st = Except.ok { st with counts.read := st.counts.read + 1 } := by
  simp [processTrip, h]

theorem processTrip_pickup_parse_fail {i : Nat} {t : Trip} {st : AnalyzeState}
    (hc : (is_jfk_airport t.dropoff_loc && is_in_middtown t.pickup_loc) = true)
    (hp : parse_datetime t.pickup_datetime = none) :
    processTrip i t st = Except.error parseErrorMsg := by
  simp [processTrip, hc, hp]

theorem processTrip_not_weekday {i : Nat} {t : Trip} {st : AnalyzeState} {p : DateTime}
    (hc : (is_jfk_airport t.dropoff_loc && is_in_middtown t.pickup_loc) = true)
    (hp : parse_datetime t.pickup_datetime = some p)
    (hw : is_weekday p = false) :
    processTrip i t st = Except.ok { st with counts.read := st.counts.read + 1 } := by
  simp [processTrip, hc, hp, hw]

theorem processTrip_dropoff_parse_fail {i : Nat} {t : Trip} {st : AnalyzeState} {p : DateTime}
    (hc : (is_jfk_airport t.dropoff_loc && is_in_middtown t.pickup_loc) = true)
    (hp : parse_datetime t.pickup_datetime = some p)
    (hw : is_weekday p = true)
    (hq : parse_datetime t.dropoff_datetime = none) :
    processTrip i t st = Except.error parseErrorMsg := by
  simp [processTrip, hc, hp, hw, hq]

theorem processTrip_skip {i : Nat} {t : Trip} {st : AnalyzeState} {p q : DateTime} {e : String}
    (hc : (is_jfk_airport t.dropoff_loc && is_in_middtown t.pickup_loc) = true)
    (hp : parse_datetime t.pickup_datetime = some p)
    (hw : is_weekday p = true)
    (hq : parse_datetime t.dropoff_datetime = some q)
    (he : record_duration st.hists p q = Except.error e) :
    processTrip i t st = Except.ok
      { counts :=
          { read := st.counts.read + 1
            matched := st.counts.matched + 1
            skipped := st.counts.skipped + 1 }
        hists := st.hists
        warns := st.warns ++ [warnLine (i + 2) e t] } := by
  simp [processTrip, hc, hp, hw, hq, he]

theorem processTrip_record {i : Nat} {t : Trip} {st : AnalyzeState} {p q : DateTime} {hs : Hists}
    (hc : (is_jfk_airport t.dropoff_loc && is_in_middtown t.pickup_loc) = true)
    (hp : parse_datetime t.pickup_datetime = some p)
    (hw : is_weekday p = true)
    (hq : parse_datetime t.dropoff_datetime = some q)
    (he : record_duration st.hists p q = Except.ok hs) :
    processTrip i t st = Except.ok
      { counts :=
          { read := st.counts.read + 1
            matched := st.counts.matched + 1
            skipped := st.counts.skipped }
        hists := hs
        warns := st.warns } := by
  simp [processTrip, hc, hp, hw, hq, he]

theorem processTrip_ok_char {i : Nat} {t : Trip} {st st' : AnalyzeState}
    (h : processTrip i t st = Except.ok st') :
    rowAborts t = false ∧
    st'.counts.read = st.counts.read + 1 ∧
    st'.counts.matched = st.counts.matched + (if rowMatched t then 1 else 0) ∧
    st'.counts.skipped = st.counts.skipped + (if rowSkips t then 1 else 0) ∧
    ∀ h2, st'.hists h2 = st.hists h2 ++ (rowVal h2 t).toList := by
  by_cases hc : (is_jfk_airport t.dropoff_loc && is_in_middtown t.pickup_loc) = true
  case neg =>
    rw [processTrip_not_corridor (Bool.not_eq_true _ ▸ hc)] at h
    cases h
    have hm : rowMatched t = false := by
      simp [rowMatched]
      intro hj hmid
      simp [hj, hmid] at hc
    have hab : rowAborts t = false := by
      simp [rowAborts]
      intro hj hmid
      simp [hj, hmid] at hc
    have hsk : rowSkips t = false := by simp [rowSkips, hm]
    simp [hm, hab, hsk, rowVal]
  case pos =>
    cases hp : parse_datetime t.pickup_datetime with
    | none =>
      rw [processTrip_pickup_parse_fail hc hp] at h
      cases h
    | some p =>
      have hm0 : rowMatched t = (is_weekday p) := by
        simp [rowMatched, hp, hc]
      cases hw : is_weekday p with
      | false =>
        rw [processTrip_not_weekday hc hp hw] at h
        cases h
        have hab : rowAborts t = false := by
          simp [rowAborts, hp, hw]
        have hm : rowMatched t = false := by rw [hm0, hw]
        have hsk : rowSkips t = false := by simp [rowSkips, hm]
        simp [hm, hab, hsk, rowVal]
      | true =>
        cases hq : parse_datetime t.dropoff_datetime with
        | none =>
          rw [processTrip_dropoff_parse_fail hc hp hw hq] at h
          cases h
        | some q =>
          have hab : rowAborts t = false := by
            simp [rowAborts, hp, hw, hq]
          have hm : rowMatched t = true := by rw [hm0, hw]
          have htd : tripDur t = some (p.hour, durationOf p q) := by
            simp [tripDur, hp, hq]
          by_cases hshort : durationOf p q < 1200
          case pos =>
            rw [processTrip_skip hc hp hw hq (by rw [record_duration_eq, if_pos hshort])] at h
            cases h
            have hsk : rowSkips t = true := by
              simp [rowSkips, hm, htd]
              omega
            refine ⟨hab, rfl, by simp [hm], by simp [hsk], ?_⟩
            intro h2
            have : rowVal h2 t = none := by
              simp [rowVal, hm, htd]
              omega
            simp [this]
          case neg =>
            by_cases hlong : 10800 < durationOf p q
            case pos =>
              rw [processTrip_skip hc hp hw hq
                (by rw [record_duration_eq, if_neg hshort, if_pos hlong])] at h
              cases h
              have hsk : rowSkips t = true := by
                simp [rowSkips, hm, htd]
                omega
              refine ⟨hab, rfl, by simp [hm], by simp [hsk], ?_⟩
              intro h2
              have : rowVal h2 t = none := by
                simp [rowVal, hm, htd]
                omega
              simp [this]
            case neg =>
              rw [processTrip_record hc hp hw hq
                (by rw [record_duration_eq, if_neg hshort, if_neg hlong])] at h
              cases h
              have hsk : rowSkips t = false := by
                simp [rowSkips, hm, htd]
                omega
              refine ⟨hab, rfl, by simp [hm], by simp [hsk], ?_⟩
              intro h2
              by_cases hh : p.hour = h2
              case pos =>
                have : rowVal h2 t = some (durationOf p q) := by
                  simp [rowVal, hm, htd, hh]
                  omega
                simp [this, histRecord, hh]
              case neg =>
                have : rowVal h2 t = none := by
                  simp [rowVal, hm, htd, hh]
                simp [this, histRecord]
                intro hcon
                exact absurd hcon.symm hh

theorem runFrom_ok_char (trips : List Trip) :
    ∀ (i : Nat) (st st' : AnalyzeState), runFrom i trips st = Except.ok st' →
      (∀ t ∈ trips, rowAborts t = false) ∧
      st'.counts.read = st.counts.read + trips.length ∧
      st'.counts.matched = st.counts.matched + trips.countP (fun t => rowMatched t) ∧
      st'.counts.skipped = st.counts.skipped + trips.countP (fun t => rowSkips t) ∧
      ∀ h2, st'.hists h2 = st.hists h2 ++ trips.filterMap (rowVal h2) := by
  induction trips with
  | nil =>
    intro i st st' h
    cases h
    simp [runFrom]
  | cons t ts ih =>
    intro i st st' h
    rw [runFrom] at h
    cases hstep : processTrip i t st with
    | error e => rw [hstep] at h; cases h
    | ok st1 =>
      rw [hstep] at h
      obtain ⟨hab, hr, hm, hs, hh⟩ := processTrip_ok_char hstep
      obtain ⟨ihab, ihr, ihm, ihs, ihh⟩ := ih (i + 1) st1 st' h
      refine ⟨?_, ?_, ?_, ?_, ?_⟩
      · intro u hu
        rcases List.mem_cons.mp hu with rfl | hu
        · exact hab
        · exact ihab u hu
      · rw [ihr, hr]; simp; omega
      · rw [ihm, hm, List.countP_cons]; omega
      · rw [ihs, hs, List.countP_cons]; omega
      · intro h2
        rw [ihh h2, hh h2, List.filterMap_cons]
        cases hv : rowVal h2 t <;> simp [hv]

theorem sum_bump (f : Nat → Nat) (h0 : Nat) : ∀ n, h0 < n →
    ((List.range n).map (fun h => if h = h0 then f h + 1 else f h)).sum =
      ((List.range n).map f).sum + 1 := by
  intro n
  induction n with
  | zero => omega
  | succ n ih =>
    intro hlt
    rw [List.range_succ, List.map_append, List.map_append, List.sum_append, List.sum_append]
    by_cases hc : h0 < n
    · rw [ih hc]
      have hn : n ≠ h0 := by omega
      simp [hn]
      omega
    · have hn : n = h0 := by omega
      have hrest : (List.range n).map (fun h => if h = h0 then f h + 1 else f h) =
          (List.range n).map f := by
        apply List.map_congr_left
        intro x hx
        have : x < n := List.mem_range.mp hx
        rw [if_neg (by omega)]
      rw [hrest]
      simp [hn]
      omega

theorem rowSkips_matched {t : Trip} (h : rowSkips t = true) : rowMatched t = true := by
  simp [rowSkips] at h
  exact h.1

theorem tripDur_hour_lt {t : Trip} {h0 d : Nat} (h : tripDur t = some (h0, d)) : h0 < 24 := by
  unfold tripDur at h
  cases hp : parse_datetime t.pickup_datetime with
  | none => rw [hp] at h; cases h
  | some p =>
    cases hq : parse_datetime t.dropoff_datetime with
    | none => rw [hp, hq] at h; cases h
    | some q =>
      rw [hp, hq] at h
      cases h
      exact parse_hour_lt hp

theorem rowMatched_not_aborts_dur {t : Trip}
    (hm : rowMatched t = true) (hab : rowAborts t = false) :
    ∃ pr, tripDur t = some pr := by
  cases hp : parse_datetime t.pickup_datetime with
  | none =>
    exfalso
    rw [rowMatched, hp] at hm
    simp at hm
  | some p =>
    cases hq : parse_datetime t.dropoff_datetime with
    | some q => exact ⟨(p.hour, durationOf p q), by simp [tripDur, hp, hq]⟩
    | none =>
      exfalso
      rw [rowMatched, hp] at hm
      rw [Bool.and_eq_true, Bool.and_eq_true] at hm
      rcases hm with ⟨⟨hj, hmid⟩, hw⟩
      simp at hw
      rw [rowAborts, hp, hq, hj, hmid] at hab
      simp [hw] at hab

theorem sum_hist_lengths (trips : List Trip)
    (hab : ∀ t ∈ trips, rowAborts t = false) :
    (((List.range 24).map (fun h => (trips.filterMap (rowVal h)).length)).sum) +
        trips.countP (fun t => rowSkips t) =
      trips.countP (fun t => rowMatched t) := by
  induction trips with
  | nil => simp
  | cons t ts ih =>
    have habt : rowAborts t = false := hab t (List.mem_cons_self t ts)
    have ihts := ih (fun u hu => hab u (List.mem_cons_of_mem t hu))
    rw [List.countP_cons, List.countP_cons]
    cases hm : rowMatched t with
    | false =>
      have hsk : rowSkips t = false := by
        cases hsk : rowSkips t with
        | false => rfl
        | true => rw [rowSkips_matched hsk] at hm; cases hm
      have hv : ∀ h, rowVal h t = none := fun h => by simp [rowVal, hm]
      simp only [List.filterMap_cons, hv, hm, hsk]
      simpa using ihts
    | true =>
      obtain ⟨⟨h0, d⟩, htd⟩ := rowMatched_not_aborts_dur hm habt
      have hh0 : h0 < 24 := tripDur_hour_lt htd
      by_cases hrange : 1200 ≤ d ∧ d ≤ 10800
      case pos =>
        have hsk : rowSkips t = false := by
          simp [rowSkips, hm, htd]
          omega
        have hv : ∀ h, rowVal h t = if h0 = h then some d else none := fun h => by
          by_cases hc : h0 = h <;> simp [rowVal, hm, htd, hc, hrange.1, hrange.2]
        have hlen : (fun h => ((t :: ts).filterMap (rowVal h)).length) =
            (fun h => if h = h0 then (ts.filterMap (rowVal h)).length + 1
              else (ts.filterMap (rowVal h)).length) := by
          funext h
          rw [List.filterMap_cons, hv h]
          by_cases hc : h = h0
          · simp [hc]
          · have : h0 ≠ h := fun hcon => hc hcon.symm
            simp [this, hc]
        simp only [hlen, hsk, hm]
        rw [sum_bump _ h0 24 hh0]
        norm_num
        omega
      case neg =>
        have hsk : rowSkips t = true := by
          simp [rowSkips, hm, htd]
          omega
        have hv : ∀ h, rowVal h t = none := fun h => by
          simp [rowVal, hm, htd]
          omega
        have hlen : (fun h => ((t :: ts).filterMap (rowVal h)).length) =
            (fun h => (ts.filterMap (rowVal h)).length) := by
          funext h
          rw [List.filterMap_cons, hv h]
        simp only [hlen, hsk, hm]
        norm_num
        omega

theorem sortedOf_eq_of_perm {a b : List Nat} (h : a.Perm b) : sortedOf a = sortedOf b := by
  exact @List.eq_of_perm_of_sorted Nat (fun x y => x ≤ y) inferInstance _ _
    (((List.perm_insertionSort _ a).trans h).trans (List.perm_insertionSort _ b).symm)
    (List.sorted_insertionSort _ a) (List.sorted_insertionSort _ b)

theorem statsEntryOf_congr {h : Nat} {a b : List Nat} (hp : a.Perm b) :
    statsEntryOf h a = statsEntryOf h b := by
  have hs := sortedOf_eq_of_perm hp
  simp [statsEntryOf, histMin, value_at_quantile, hs]

theorem statsEntryOf_nil (h : Nat) :
    statsEntryOf h [] = { hour_of_day := h, minimum := 0, median := 0, p95 := 0 } := by
  simp [statsEntryOf, histMin, value_at_quantile, sortedOf]

theorem statsEntryOf_single (h v : Nat) :
    statsEntryOf h [v] =
      { hour_of_day := h, minimum := (v : Rat) / 60, median := (v : Rat) / 60,
        p95 := (v : Rat) / 60 } := by
  have hs : sortedOf [v] = [v] := by simp [sortedOf, List.insertionSort, List.orderedInsert]
  have hc1 : (Int.ceil ((2 : Rat)⁻¹)) = 1 := by
    rw [Int.ceil_eq_iff]
    norm_num
  have hc2 : (Int.ceil ((19 : Rat) / 20)) = 1 := by
    rw [Int.ceil_eq_iff]
    norm_num
  simp [statsEntryOf, histMin, value_at_quantile, hs, hc1, hc2]

theorem rowMatched_iff (t : Trip) (dt : DateTime)
    (hdt : parse_datetime t.pickup_datetime = some dt) :
    rowMatched t = true ↔
      (t.dropoff_loc = 132 ∧
        (t.pickup_loc = 90 ∨ t.pickup_loc = 100 ∨ t.pickup_loc = 161 ∨ t.pickup_loc = 162 ∨
          t.pickup_loc = 163 ∨ t.pickup_loc = 164 ∨ t.pickup_loc = 186 ∨ t.pickup_loc = 230 ∨
          t.pickup_loc = 234) ∧ numberFromMonday dt ≤ 5) := by
  rw [rowMatched, hdt]
  rw [Bool.and_eq_true, Bool.and_eq_true]
  rw [is_jfk_airport_iff, is_in_middtown_iff]
  simp [is_weekday]
  tauto

theorem tooShortMsg_ne_tooLongMsg (d : Nat) : tooShortMsg d ≠ tooLongMsg d := by
  intro h
  have hlen := congrArg String.length h
  rw [tooShortMsg, tooLongMsg] at hlen
  rw [String.length_append, String.length_append, String.length_append,
    String.length_append] at hlen
  have hne : (" is too short." : String).length ≠
      (" is too long. ValueOutOfRangeResizeDisabled" : String).length := by decide
  omega

theorem runFrom_abort {t : Trip} {post : List Trip}
    (hc : (is_jfk_airport t.dropoff_loc && is_in_middtown t.pickup_loc) = true)
    (hbad : parse_datetime t.pickup_datetime = none ∨
      ∃ dt, parse_datetime t.pickup_datetime = some dt ∧ is_weekday dt = true ∧
        parse_datetime t.dropoff_datetime = none) :
    ∀ (i : Nat) (st : AnalyzeState), runFrom i (t :: post) st = Except.error parseErrorMsg := by
  intro i st
  rw [runFrom]
  rcases hbad with hp | ⟨dt, hp, hw, hq⟩
  · rw [processTrip_pickup_parse_fail hc hp]
  · rw [processTrip_dropoff_parse_fail hc hp hw hq]

theorem runFrom_ok_split (xs ys : List Trip) :
    ∀ {i : Nat} {st st' : AnalyzeState}, runFrom i (xs ++ ys) st = Except.ok st' →
      ∃ st1, runFrom i xs st = Except.ok st1 ∧
        runFrom (i + xs.length) ys st1 = Except.ok st' := by
  induction xs with
  | nil =>
    intro i st st' h
    exact ⟨st, rfl, by simpa using h⟩
  | cons x xs ih =>
    intro i st st' h
    rw [List.cons_append, runFrom] at h
    cases hstep : processTrip i x st with
    | error e => rw [hstep] at h; cases h
    | ok st1 =>
      rw [hstep] at h
      obtain ⟨st2, hxs, hys⟩ := ih h
      refine ⟨st2, ?_, ?_⟩
      · rw [runFrom, hstep]
        simpa using hxs
      · have : i + (x :: xs).length = i + 1 + xs.length := by simp; omega
        rw [this]
        exact hys

/-- C1: a row is counted as matched exactly when `is_jfk(dropoff_loc)`,
`is_midtown(pickup_loc)` (membership in the fixed nine-element set) and
`is_weekday(pickup_dt)` (Monday=1..Sunday=7 at most 5) all hold; and when
either integer location check fails, the row is processed to completion with
only `read` incremented, with no timestamp parsing consulted at all — in
particular such a row can never abort the run on an unparseable timestamp. -/
theorem claim1_matched_filter_and_short_circuit (i : Nat) (t : Trip) (st : AnalyzeState) :
    (∀ dt, parse_datetime t.pickup_datetime = some dt →
      ∀ st', processTrip i t st = Except.ok st' →
        (st'.counts.matched = st.counts.matched + 1 ↔
          (t.dropoff_loc = 132 ∧
            (t.pickup_loc = 90 ∨ t.pickup_loc = 100 ∨ t.pickup_loc = 161 ∨ t.pickup_loc = 162 ∨
              t.pickup_loc = 163 ∨ t.pickup_loc = 164 ∨ t.pickup_loc = 186 ∨ t.pickup_loc = 230 ∨
              t.pickup_loc = 234) ∧ numberFromMonday dt ≤ 5)))
    ∧ ((is_jfk_airport t.dropoff_loc && is_in_middtown t.pickup_loc) = false →
        processTrip i t st = Except.ok { st with counts.read := st.counts.read + 1 }) := by
  constructor
  · intro dt hdt st' hok
    have hchar := processTrip_ok_char hok
    have hiff := rowMatched_iff t dt hdt
    rw [hchar.2.2.1]
    constructor
    · intro hEq
      apply hiff.mp
      cases hm : rowMatched t with
      | true => rfl
      | false => rw [hm] at hEq; simp at hEq
    · intro hR
      rw [if_pos (hiff.mpr hR)]
  · exact processTrip_not_corridor

/-- Witness for C1 at a concrete accepted row. -/
theorem claim1_witness :
    c1res.counts.matched = initState.counts.matched + 1 ↔
      (c1trip.dropoff_loc = 132 ∧
        (c1trip.pickup_loc = 90 ∨ c1trip.pickup_loc = 100 ∨ c1trip.pickup_loc = 161 ∨
          c1trip.pickup_loc = 162 ∨ c1trip.pickup_loc = 163 ∨ c1trip.pickup_loc = 164 ∨
          c1trip.pickup_loc = 186 ∨ c1trip.pickup_loc = 230 ∨ c1trip.pickup_loc = 234) ∧
        numberFromMonday c1dt ≤ 5) :=
  (claim1_matched_filter_and_short_circuit 0 c1trip initState).1 c1dt (by rfl) c1res (by rfl)

/-- C2: after a run that completes, `skipped ≤ matched ≤ read`, and the total
number of observations recorded across the 24 histograms is
`matched − skipped`. -/
theorem claim2_counter_invariants (trips : List Trip) (st : AnalyzeState)
    (h : runAnalyze trips = Except.ok st) :
    st.counts.skipped ≤ st.counts.matched ∧ st.counts.matched ≤ st.counts.read ∧
    ((List.range 24).map (fun h2 => (st.hists h2).length)).sum =
      st.counts.matched - st.counts.skipped := by
  obtain ⟨hab, hr, hm, hs, hh⟩ := runFrom_ok_char trips 0 initState st h
  have hread : st.counts.read = trips.length := by rw [hr]; simp [initState]
  have hmat : st.counts.matched = trips.countP (fun t => rowMatched t) := by
    rw [hm]; simp [initState]
  have hskip : st.counts.skipped = trips.countP (fun t => rowSkips t) := by
    rw [hs]; simp [initState]
  have hhl : ∀ h2, st.hists h2 = trips.filterMap (rowVal h2) := by
    intro h2; rw [hh h2]; simp [initState]
  refine ⟨?_, ?_, ?_⟩
  · rw [hskip, hmat]
    exact List.countP_mono_left (fun t _ ht => rowSkips_matched ht)
  · rw [hmat, hread]
    exact List.countP_le_length _
  · have hsum := sum_hist_lengths trips hab
    have hmaps : ((List.range 24).map (fun h2 => (st.hists h2).length)) =
        ((List.range 24).map (fun h2 => (trips.filterMap (rowVal h2)).length)) := by
      apply List.map_congr_left
      intro x _
      rw [hhl x]
    rw [hmaps, hmat, hskip]
    omega

/-- Witness for C2 on a concrete one-row input. -/
theorem claim2_witness :
    c2st.counts.skipped ≤ c2st.counts.matched ∧ c2st.counts.matched ≤ c2st.counts.read ∧
    ((List.range 24).map (fun h2 => (c2st.hists h2).length)).sum =
      c2st.counts.matched - c2st.counts.skipped :=
  claim2_counter_invariants [c2trip] c2st (by rfl)

/-- C3: for a pickup/dropoff pair whose second difference is the non-negative
whole number `d` (within the i64 range of the source's duration arithmetic),
insertion fails with the too-short error carrying `d` exactly when `d < 1200`;
on that failure the caller keeps all histograms unchanged; and `d = 1200` is
accepted and recorded.  In particular 1199 is rejected and 1200 accepted. -/
theorem claim3_too_short_boundary (hs : Hists) (p q : DateTime) (d : Nat)
    (hd : (toSecs q : Int) - (toSecs p : Int) = (d : Int)) (hlt : d < 2 ^ 63) :
    (record_duration hs p q = Except.error (tooShortMsg d) ↔ d < 1200) ∧
    (d < 1200 → applyRecord hs p q = (hs, some (tooShortMsg d))) ∧
    (d = 1200 → record_duration hs p q = Except.ok (histRecord hs p.hour 1200)) := by
  have hdur : durationOf p q = d := durationOf_eq_of_nonneg hd hlt
  refine ⟨⟨?_, ?_⟩, ?_, ?_⟩
  · intro h
    by_contra hge
    rw [record_duration_eq, hdur, if_neg hge] at h
    by_cases hlong : 10800 < d
    · rw [if_pos hlong] at h
      exact tooShortMsg_ne_tooLongMsg d ((Except.error.injEq _ _).mp h).symm
    · rw [if_neg hlong] at h
      exact Except.noConfusion h
  · intro h
    rw [record_duration_eq, hdur, if_pos h]
  · intro h
    unfold applyRecord
    rw [record_duration_eq, hdur, if_pos h]
  · intro h
    subst h
    rw [record_duration_eq, hdur, if_neg (by omega), if_neg (by omega)]

/-- Witness for C3 at a concrete 1199-second pair. -/
theorem claim3_witness :
    (record_duration initState.hists c3p c3q = Except.error (tooShortMsg 1199) ↔ 1199 < 1200) ∧
    (1199 < 1200 → applyRecord initState.hists c3p c3q =
      (initState.hists, some (tooShortMsg 1199))) ∧
    (1199 = 1200 → record_duration initState.hists c3p c3q =
      Except.ok (histRecord initState.hists c3p.hour 1200)) :=
  claim3_too_short_boundary initState.hists c3p c3q 1199 (by decide) (by decide)

/-- C4: for a pickup/dropoff pair whose second difference is a whole number
`d ≥ 1200` (within the i64 range), insertion fails with the too-long error
exactly when `d > 10800`; on that failure the caller keeps all histograms
unchanged; and any `d ≤ 10800` is accepted and recorded in the histogram of
the pickup hour.  In particular 10800 is accepted and 10801 rejected. -/
theorem claim4_too_long_boundary (hs : Hists) (p q : DateTime) (d : Nat)
    (hd : (toSecs q : Int) - (toSecs p : Int) = (d : Int)) (hlt : d < 2 ^ 63)
    (h12 : 1200 ≤ d) :
    (record_duration hs p q = Except.error (tooLongMsg d) ↔ 10800 < d) ∧
    (10800 < d → applyRecord hs p q = (hs, some (tooLongMsg d))) ∧
    (d ≤ 10800 → record_duration hs p q = Except.ok (histRecord hs p.hour d)) := by
  have hdur : durationOf p q = d := durationOf_eq_of_nonneg hd hlt
  refine ⟨⟨?_, ?_⟩, ?_, ?_⟩
  · intro h
    by_contra hle
    rw [record_duration_eq, hdur, if_neg (by omega), if_neg hle] at h
    exact Except.noConfusion h
  · intro h
    rw [record_duration_eq, hdur, if_neg (by omega), if_pos h]
  · intro h
    unfold applyRecord
    rw [record_duration_eq, hdur, if_neg (by omega), if_pos h]
  · intro h
    rw [record_duration_eq, hdur, if_neg (by omega), if_neg (by omega)]

/-- Witness for C4 at the concrete 10800-second boundary pair. -/
theorem claim4_witness :
    (record_duration initState.hists c4p c4q = Except.error (tooLongMsg 10800) ↔ 10800 < 10800) ∧
    (10800 < 10800 → applyRecord initState.hists c4p c4q =
      (initState.hists, some (tooLongMsg 10800))) ∧
    (10800 ≤ 10800 → record_duration initState.hists c4p c4q =
      Except.ok (histRecord initState.hists c4p.hour 10800)) :=
  claim4_too_long_boundary initState.hists c4p c4q 10800 (by decide) (by decide) (by decide)

/-- C5: on the single data row pickup 2020-01-06 08:00:00 (a Monday), dropoff
2020-01-06 11:00:00 (exactly 10800 s), pickup location 161, dropoff location
132, the run accepts the trip (read=1, matched=1, skipped=0, no warnings) and
the hour-8 entry reports minimum = median = 95th percentile = 180 minutes,
all other hours showing the empty-state reading. -/
theorem claim5_three_hour_boundary :
    analyze [c5trip] =
      Except.ok
        ({ record_counts := { read := 1, matched := 1, skipped := 0 }
           stats := (List.range 24).map (fun h =>
             if h = 8 then { hour_of_day := 8, minimum := 180, median := 180, p95 := 180 }
             else { hour_of_day := h, minimum := 0, median := 0, p95 := 0 }) },
         ([] : List String)) := by
  have hrun : runAnalyze [c5trip] = Except.ok c5st := by rfl
  rw [analyze, hrun]
  have hstats : (List.range 24).map (fun h => statsEntryOf h (c5st.hists h)) =
      (List.range 24).map (fun h =>
        if h = 8 then
          ({ hour_of_day := 8, minimum := 180, median := 180, p95 := 180 } : StatsEntry)
        else { hour_of_day := h, minimum := 0, median := 0, p95 := 0 }) := by
    apply List.map_congr_left
    intro x _
    by_cases hx : x = 8
    · subst hx
      have h8 : c5st.hists 8 = [10800] := by rfl
      rw [h8, statsEntryOf_single, if_pos rfl]
      norm_num
    · have hx0 : c5st.hists x = [] := by
        show (if x = 8 then (fun _ => ([] : List Nat)) x ++ [10800]
          else (fun _ => ([] : List Nat)) x) = []
        rw [if_neg hx]
      rw [hx0, statsEntryOf_nil, if_neg hx]
  show Except.ok (displayStats c5st, c5st.warns) = _
  rw [displayStats, hstats]
  rfl

/-- C6: for every completed run, the emitted stats sequence has exactly 24
entries whose `hour_of_day` at position i is i (hence hours 0..23 in strictly
ascending order); an hour whose histogram recorded nothing still appears, as
an entry whose three statistics equal the empty-state reading 0 — it is never
omitted (the sequence always has all 24 positions) and never null (the entry
type carries numeric fields only). -/
theorem claim6_stats_shape (trips : List Trip) (st : AnalyzeState)
    (_h : runAnalyze trips = Except.ok st) :
    (displayStats st).stats.length = 24 ∧
    (∀ i, i < 24 → ∃ e, (displayStats st).stats[i]? = some e ∧ e.hour_of_day = i) ∧
    (∀ i, i < 24 → st.hists i = [] →
      (displayStats st).stats[i]? =
        some { hour_of_day := i, minimum := 0, median := 0, p95 := 0 }) := by
  refine ⟨?_, ?_, ?_⟩
  · simp [displayStats]
  · intro i hi
    refine ⟨statsEntryOf i (st.hists i), ?_, rfl⟩
    simp [displayStats, List.getElem?_map, List.getElem?_range hi]
  · intro i hi hE
    simp [displayStats, List.getElem?_map, List.getElem?_range hi, hE, statsEntryOf_nil]

/-- Witness for C6: the empty input's hour-8 entry is the all-zero entry. -/
theorem claim6_witness :
    (displayStats initState).stats[8]? =
      some { hour_of_day := 8, minimum := 0, median := 0, p95 := 0 } :=
  (claim6_stats_shape [] initState rfl).2.2 8 (by decide) rfl

/-- C7: two completed runs over inputs holding the same rows in different
order (a permutation) produce the same output document, hence the same JSON
text; only the document, not the diagnostic stream, is compared. -/
theorem claim7_order_independent (l1 l2 : List Trip) (st1 st2 : AnalyzeState)
    (hperm : l1.Perm l2)
    (h1 : runAnalyze l1 = Except.ok st1) (h2 : runAnalyze l2 = Except.ok st2) :
    displayStats st1 = displayStats st2 := by
  obtain ⟨hab1, hr1, hm1, hs1, hh1⟩ := runFrom_ok_char l1 0 initState st1 h1
  obtain ⟨hab2, hr2, hm2, hs2, hh2⟩ := runFrom_ok_char l2 0 initState st2 h2
  have e1 : st1.counts.read = st2.counts.read := by
    rw [hr1, hr2, hperm.length_eq]
  have e2 : st1.counts.matched = st2.counts.matched := by
    rw [hm1, hm2, hperm.countP_eq]
  have e3 : st1.counts.skipped = st2.counts.skipped := by
    rw [hs1, hs2, hperm.countP_eq]
  have hcounts : st1.counts = st2.counts := by
    calc st1.counts = ⟨st1.counts.read, st1.counts.matched, st1.counts.skipped⟩ := rfl
      _ = ⟨st2.counts.read, st2.counts.matched, st2.counts.skipped⟩ := by rw [e1, e2, e3]
      _ = st2.counts := rfl
  have hhperm : ∀ h2, (st1.hists h2).Perm (st2.hists h2) := by
    intro hr
    rw [hh1 hr, hh2 hr]
    show (initState.hists hr ++ l1.filterMap (rowVal hr)).Perm
      (initState.hists hr ++ l2.filterMap (rowVal hr))
    simp [initState]
    exact hperm.filterMap (rowVal hr)
  have hstats : (List.range 24).map (fun h => statsEntryOf h (st1.hists h)) =
      (List.range 24).map (fun h => statsEntryOf h (st2.hists h)) :=
    List.map_congr_left (fun x _ => statsEntryOf_congr (hhperm x))
  rw [displayStats, displayStats, hcounts, hstats]

/-- Witness for C7 on a concrete two-row input and its swap. -/
theorem claim7_witness : displayStats c7st1 = displayStats c7st2 :=
  claim7_order_independent [c7a, c7b] [c7b, c7a] c7st1 c7st2
    (List.Perm.swap c7b c7a []) (by rfl) (by rfl)

/-- C8: a row that passes both location checks but whose pickup timestamp
fails to parse — or that additionally passes the weekday test and whose
dropoff timestamp fails to parse — makes the loop return the fatal parse
error at that row, from any loop position and state: the rows after it are
never consulted, no final state (and hence no output document) exists, and no
counter of any state survives, so the row is not counted as skipped.
Consequently `analyze` on any input containing such a row never succeeds. -/
theorem claim8_parse_failure_fatal (i : Nat) (t : Trip) (post : List Trip) (st : AnalyzeState)
    (hc : (is_jfk_airport t.dropoff_loc && is_in_middtown t.pickup_loc) = true)
    (hbad : parse_datetime t.pickup_datetime = none ∨
      ∃ dt, parse_datetime t.pickup_datetime = some dt ∧ is_weekday dt = true ∧
        parse_datetime t.dropoff_datetime = none) :
    runFrom i (t :: post) st = Except.error parseErrorMsg ∧
    ∀ (pre : List Trip) (out : DisplayStats × List String),
      analyze (pre ++ t :: post) ≠ Except.ok out := by
  refine ⟨runFrom_abort hc hbad i st, ?_⟩
  intro pre out hok
  rw [analyze] at hok
  cases hrun : runAnalyze (pre ++ t :: post) with
  | error e => rw [hrun] at hok; cases hok
  | ok stf =>
    obtain ⟨st1, _, habort⟩ := runFrom_ok_split pre (t :: post) hrun
    rw [runFrom_abort hc hbad _ st1] at habort
    cases habort

/-- Witness for C8 at a concrete row with a malformed pickup timestamp. -/
theorem claim8_witness :
    runFrom 0 (c8bad :: [c8next]) initState = Except.error parseErrorMsg :=
  (claim8_parse_failure_fatal 0 c8bad [c8next] initState (by rfl) (Or.inl (by rfl))).1

/-- C9: a matched row whose duration validation fails ends its loop step with
exactly one diagnostic line appended, of the form
`WARN: <line> - <msg>. Skipped: <trip-debug>` where for 0-based data row
index i the reported line is i+2 (the 1-based i-th data row is reported as
line i+1, header counted as line 1), `skipped` incremented by one, the
histograms unchanged — and the loop continues with the remaining rows. -/
theorem claim9_warning_and_continue (i : Nat) (t : Trip) (post : List Trip) (st : AnalyzeState)
    (p q : DateTime) (e : String)
    (hc : (is_jfk_airport t.dropoff_loc && is_in_middtown t.pickup_loc) = true)
    (hp : parse_datetime t.pickup_datetime = some p)
    (hw : is_weekday p = true)
    (hq : parse_datetime t.dropoff_datetime = some q)
    (he : record_duration st.hists p q = Except.error e) :
    processTrip i t st = Except.ok
      { counts := { read := st.counts.read + 1, matched := st.counts.matched + 1,
                    skipped := st.counts.skipped + 1 }
        hists := st.hists
        warns := st.warns ++ [warnLine (i + 2) e t] } ∧
    runFrom i (t :: post) st = runFrom (i + 1) post
      { counts := { read := st.counts.read + 1, matched := st.counts.matched + 1,
                    skipped := st.counts.skipped + 1 }
        hists := st.hists
        warns := st.warns ++ [warnLine (i + 2) e t] } := by
  refine ⟨processTrip_skip hc hp hw hq he, ?_⟩
  rw [runFrom, processTrip_skip hc hp hw hq he]

/-- Witness for C9 at a concrete 600-second row in first data position
(reported as line 2). -/
theorem claim9_witness :
    processTrip 0 c9trip initState = Except.ok
      { counts := { read := initState.counts.read + 1, matched := initState.counts.matched + 1,
                    skipped := initState.counts.skipped + 1 }
        hists := initState.hists
        warns := initState.warns ++ [warnLine (0 + 2) (tooShortMsg 600) c9trip] } ∧
    runFrom 0 (c9trip :: []) initState = runFrom (0 + 1) []
      { counts := { read := initState.counts.read + 1, matched := initState.counts.matched + 1,
                    skipped := initState.counts.skipped + 1 }
        hists := initState.hists
        warns := initState.warns ++ [warnLine (0 + 2) (tooShortMsg 600) c9trip] } :=
  claim9_warning_and_continue 0 c9trip [] initState c9p c9q (tooShortMsg 600)
    (by rfl) (by rfl) (by rfl) (by rfl) (by rfl)

/-- C10: when the dropoff is strictly earlier than the pickup, the signed
second difference `d` is negative and its u64 cast is `d + 2^64 ≥ 2^63`, so
the too-short branch is never taken: `record_duration` always fails with the
too-long error, the caller keeps all histograms unchanged, and inside the
loop such a matched row is counted as skipped (with its warning line) and the
run continues rather than aborting. -/
theorem claim10_negative_duration_skipped (hs : Hists) (p q : DateTime) (d : Int)
    (hd : (toSecs q : Int) - (toSecs p : Int) = d) (hneg : d < 0)
    (hbound : -(2 ^ 63) ≤ d) :
    2 ^ 63 ≤ durationOf p q ∧
    record_duration hs p q = Except.error (tooLongMsg (durationOf p q)) ∧
    applyRecord hs p q = (hs, some (tooLongMsg (durationOf p q))) ∧
    ∀ (i : Nat) (t : Trip) (st : AnalyzeState),
      parse_datetime t.pickup_datetime = some p →
      parse_datetime t.dropoff_datetime = some q →
      (is_jfk_airport t.dropoff_loc && is_in_middtown t.pickup_loc) = true →
      is_weekday p = true →
      processTrip i t st = Except.ok
        { counts := { read := st.counts.read + 1, matched := st.counts.matched + 1,
                      skipped := st.counts.skipped + 1 }
          hists := st.hists
          warns := st.warns ++ [warnLine (i + 2) (tooLongMsg (durationOf p q)) t] } := by
  have hwrap := durationOf_of_neg hd hneg hbound
  have hge : 2 ^ 63 ≤ durationOf p q := by omega
  have hrec : ∀ hs2 : Hists, record_duration hs2 p q =
      Except.error (tooLongMsg (durationOf p q)) := by
    intro hs2
    rw [record_duration_eq, if_neg (by omega), if_pos (by omega)]
  refine ⟨hge, hrec hs, ?_, ?_⟩
  · unfold applyRecord
    rw [hrec hs]
  · intro i t st hp hq hc hw
    exact processTrip_skip hc hp hw hq (hrec st.hists)

/-- Witness for C10 at a concrete dropoff-before-pickup row (-3600 s). -/
theorem claim10_witness :
    2 ^ 63 ≤ durationOf c10p c10q ∧
    processTrip 0 c10trip initState = Except.ok
      { counts := { read := initState.counts.read + 1, matched := initState.counts.matched + 1,
                    skipped := initState.counts.skipped + 1 }
        hists := initState.hists
        warns := initState.warns ++
          [warnLine (0 + 2) (tooLongMsg (durationOf c10p c10q)) c10trip] } := by
  have h := claim10_negative_duration_skipped initState.hists c10p c10q (-3600)
    (by decide) (by decide) (by decide)
  exact ⟨h.1, h.2.2.2 0 c10trip initState (by rfl) (by rfl) (by rfl) (by rfl)⟩
